import Mathlib

/-
Shallow embedding of the booking core of the Rooms repository
(src/backend/src/app.ts): the createBooking, updateBooking and
deleteBooking request handlers, the Prisma conflict query they share,
and the room-status writes they perform.  Timestamps are modelled as
integers on one absolute timeline; identifiers of rooms and users are
strings, booking identifiers are naturals drawn from a store counter
(the store generates fresh ids on insert).
-/

namespace Rooms

/-- Room record of the Prisma data model as used by app.ts: id, name,
number, capacity, features and the status string written by the
handlers (available, booked, maintenance). -/
structure Room where
  id : String
  name : String
  number : String
  capacity : Int
  features : List String
  status : String
deriving DecidableEq

/-- Booking record of the Prisma data model as used by app.ts. -/
structure Booking where
  id : Nat
  title : String
  roomId : String
  startTime : Int
  endTime : Int
  notes : Option String
  userId : String
deriving DecidableEq

/-- State of the persistent store: the Room and Booking tables (lists in
table order; inserts append) and the counter from which the store draws
fresh booking ids. -/
structure Store where
  rooms : List Room
  bookings : List Booking
  nextId : Nat
deriving DecidableEq

/-- Body of POST /api/bookings: title, roomId, startTime, endTime,
userId required; notes optional. -/
structure CreateReq where
  title : String
  roomId : String
  startTime : Int
  endTime : Int
  notes : Option String
  userId : String
deriving DecidableEq

/-- Body of PATCH /api/bookings/:id: every field optional.  An absent
startTime or endTime is turned by the handler into new Date(undefined),
an invalid Date, which the store rejects when it is used in a query. -/
structure UpdateReq where
  title : Option String
  startTime : Option Int
  endTime : Option Int
deriving DecidableEq

/-- Outcome of the createBooking handler: 201 with the booking, 409 with
the conflict list, or the caught store failure answered as a generic
500.  The handler has no 404 path. -/
inductive CreateResult where
  | created (b : Booking)
  | conflict (cs : List Booking)
  | storeError
deriving DecidableEq

/-- Outcome of the updateBooking handler: 200 with the booking, 409 with
the conflict list, or 404 (also produced by the catch-all around the
store calls). -/
inductive UpdateResult where
  | updated (b : Booking)
  | conflict (cs : List Booking)
  | notFound
deriving DecidableEq

/-- Outcome of the deleteBooking handler: 204 with no payload, or 404
(also produced by the catch-all around the transaction). -/
inductive DeleteResult where
  | deleted
  | notFound
deriving DecidableEq

/-- Row predicate of the conflict findMany of app.ts (lines 215-221 and
504-511): same roomId, not the excluded id (update only), startTime lt
the candidate end and endTime gt the candidate start. -/
def matchesConflict (rid : String) (startT endT : Int) (excludeId : Option Nat)
    (b : Booking) : Bool :=
  b.roomId == rid &&
    (match excludeId with
     | none => true
     | some i => b.id != i) &&
    decide (b.startTime < endT) && decide (startT < b.endTime)

/-- The conflict query both handlers run: all bookings of the room whose
interval overlaps the candidate half-open interval, excluding at most
one booking id.  The findMany has no orderBy clause, so the result is in
table order. -/
def findConflicts (bs : List Booking) (rid : String) (startT endT : Int)
    (excludeId : Option Nat) : List Booking :=
  bs.filter (matchesConflict rid startT endT excludeId)

/-- Whether a room with the given id exists in the store. -/
def hasRoom (s : Store) (rid : String) : Bool :=
  s.rooms.any (fun r => r.id == rid)

/-- Modelled from the spec: the Prisma schema is not among the sources;
the spec (section 3) declares Booking.roomId an owner reference to Room,
so the store rejects an insert whose roomId matches no existing room. -/
def insertAllowed (s : Store) (rid : String) : Bool :=
  hasRoom s rid

/-- Room-table effect of prisma.room.update on the status field: the
rows whose id matches get the new status. -/
def setStatusRooms (rid st : String) (rs : List Room) : List Room :=
  rs.map (fun r => if r.id == rid then { r with status := st } else r)

/-- Store effect of prisma.room.update writing a status. -/
def setRoomStatus (s : Store) (rid st : String) : Store :=
  { s with rooms := setStatusRooms rid st s.rooms }

/-- Status of the room with a given id, when it exists. -/
def roomStatus (s : Store) (rid : String) : Option String :=
  (s.rooms.find? (fun r => r.id == rid)).map Room.status

/-- prisma.booking.findUnique by id. -/
def findUnique (bs : List Booking) (i : Nat) : Option Booking :=
  bs.find? (fun b => b.id == i)

/-- POST /api/bookings handler (app.ts lines 209-259).  The conflict
query, the booking insert and the room-status write are three separate
store calls with no surrounding transaction; the two Boolean oracles
say whether the insert and the status write succeed at the store
(infrastructure failures are caught and answered as 500).  When the
status write fails, the already inserted booking row stays. -/
def createBookingF (insOk statOk : Bool) (req : CreateReq) (s : Store) :
    CreateResult × Store :=
  let conflicts := findConflicts s.bookings req.roomId req.startTime req.endTime none
  if conflicts.length > 0 then
    (CreateResult.conflict conflicts, s)
  else
    if insOk && insertAllowed s req.roomId then
      let b : Booking :=
        { id := s.nextId, title := req.title, roomId := req.roomId,
          startTime := req.startTime, endTime := req.endTime,
          notes := req.notes, userId := req.userId }
      let s1 : Store := { s with bookings := s.bookings ++ [b], nextId := s.nextId + 1 }
      if statOk && hasRoom s1 req.roomId then
        (CreateResult.created b, setRoomStatus s1 req.roomId "booked")
      else
        (CreateResult.storeError, s1)
    else
      (CreateResult.storeError, s)

/-- createBooking in the failure-free run of the store. -/
def createBooking (req : CreateReq) (s : Store) : CreateResult × Store :=
  createBookingF true true req s

/-- PATCH /api/bookings/:id handler (app.ts lines 487-541).  It loads
the booking, runs the conflict query against the effective interval
excluding the booking itself, and applies the field changes.  When
startTime or endTime is absent from the body, new Date(undefined) is an
invalid Date; the store rejects the conflict query that uses it, and
the catch-all answers 404. -/
def updateBooking (i : Nat) (req : UpdateReq) (s : Store) :
    UpdateResult × Store :=
  match findUnique s.bookings i with
  | none => (UpdateResult.notFound, s)
  | some existing =>
    match req.startTime, req.endTime with
    | some ns, some ne =>
      let conflicts := findConflicts s.bookings existing.roomId ns ne (some i)
      if conflicts.length > 0 then
        (UpdateResult.conflict conflicts, s)
      else
        let t1 : String := Option.getD req.title existing.title
        let b1 : Booking := { existing with title := t1, startTime := ns, endTime := ne }
        (UpdateResult.updated b1,
          { s with bookings := s.bookings.map (fun b => if b.id == i then b1 else b) })
    | _, _ => (UpdateResult.notFound, s)

/-- DELETE /api/bookings/:id handler (app.ts lines 433-458).  Inside one
transaction it loads the booking, deletes the row and writes the room
status; any failure rolls the transaction back and the catch answers
404.  The room lookup of the status write fails when the referenced
room is absent. -/
def deleteBooking (i : Nat) (s : Store) : DeleteResult × Store :=
  match findUnique s.bookings i with
  | none => (DeleteResult.notFound, s)
  | some b =>
    if hasRoom s b.roomId then
      (DeleteResult.deleted,
        setRoomStatus { s with bookings := s.bookings.filter (fun x => x.id != i) }
          b.roomId "available")
    else
      (DeleteResult.notFound, s)

/-- One inbound request to the booking lifecycle. -/
inductive Op where
  | createB (req : CreateReq)
  | updateB (i : Nat) (req : UpdateReq)
  | deleteB (i : Nat)

/-- Committed store state after one operation (failure-free store). -/
def step (s : Store) : Op → Store
  | Op.createB req => (createBooking req s).2
  | Op.updateB i req => (updateBooking i req s).2
  | Op.deleteB i => (deleteBooking i s).2

/-- Committed store state after a sequence of operations. -/
def run (s : Store) (ops : List Op) : Store :=
  ops.foldl step s

/-- Half-open interval overlap: [s1,e1) and [s2,e2) overlap iff s1 lt e2
and s2 lt e1. -/
def overlap (s1 e1 s2 e2 : Int) : Prop :=
  s1 < e2 ∧ s2 < e1

instance (s1 e1 s2 e2 : Int) : Decidable (overlap s1 e1 s2 e2) :=
  inferInstanceAs (Decidable (s1 < e2 ∧ s2 < e1))

/-- The non-overlap invariant: two distinct bookings of the same room
never overlap. -/
def pairwiseNonOverlap (bs : List Booking) : Prop :=
  ∀ b1 ∈ bs, ∀ b2 ∈ bs, b1.id ≠ b2.id → b1.roomId = b2.roomId →
    ¬ overlap b1.startTime b1.endTime b2.startTime b2.endTime

instance (bs : List Booking) : Decidable (pairwiseNonOverlap bs) :=
  inferInstanceAs (Decidable (∀ b1 ∈ bs, ∀ b2 ∈ bs, _ → _ → _))

/-- Store well-formedness: booking ids are below the fresh-id counter,
ids are unique (the id column is the primary key), and the non-overlap
invariant holds. -/
def Inv (s : Store) : Prop :=
  (∀ b ∈ s.bookings, b.id < s.nextId) ∧
    (s.bookings.map Booking.id).Nodup ∧ pairwiseNonOverlap s.bookings

instance (s : Store) : Decidable (Inv s) :=
  inferInstanceAs (Decidable (_ ∧ _ ∧ _))

/-- Referential integrity of the booking table: every booking points at
an existing room. -/
def wellFormedFK (s : Store) : Prop :=
  ∀ b ∈ s.bookings, hasRoom s b.roomId = true

instance (s : Store) : Decidable (wellFormedFK s) :=
  inferInstanceAs (Decidable (∀ b ∈ s.bookings, _))

/-- Boolean row predicate of the conflict query, as a proposition. -/
theorem matchesConflict_iff (rid : String) (startT endT : Int) (excl : Option Nat)
    (b : Booking) :
    matchesConflict rid startT endT excl b = true ↔
      (b.roomId = rid ∧ (∀ i ∈ excl, b.id ≠ i) ∧ b.startTime < endT ∧ startT < b.endTime) := by
  cases excl <;>
    simp [matchesConflict, Option.mem_def, and_assoc, bne_iff_ne]

/-- Membership in the conflict query result. -/
theorem mem_findConflicts (bs : List Booking) (rid : String) (startT endT : Int)
    (excl : Option Nat) (b : Booking) :
    b ∈ findConflicts bs rid startT endT excl ↔
      (b ∈ bs ∧ b.roomId = rid ∧ (∀ i ∈ excl, b.id ≠ i) ∧
        b.startTime < endT ∧ startT < b.endTime) := by
  rw [findConflicts, List.mem_filter, matchesConflict_iff]

/-- The conflict query is empty exactly when no row matches. -/
theorem findConflicts_eq_nil_iff (bs : List Booking) (rid : String) (startT endT : Int)
    (excl : Option Nat) :
    findConflicts bs rid startT endT excl = [] ↔
      ∀ b ∈ bs, b.roomId = rid → (∀ i ∈ excl, b.id ≠ i) →
        ¬ (b.startTime < endT ∧ startT < b.endTime) := by
  constructor
  · intro h b hb hr hex hov
    have : b ∈ findConflicts bs rid startT endT excl :=
      (mem_findConflicts bs rid startT endT excl b).2 ⟨hb, hr, hex, hov.1, hov.2⟩
    rw [h] at this
    exact absurd this (List.not_mem_nil b)
  · intro h
    rw [findConflicts, List.filter_eq_nil_iff]
    intro b hb hmatch
    rcases (matchesConflict_iff rid startT endT excl b).1 hmatch with ⟨hr, hex, h1, h2⟩
    exact h b hb hr hex ⟨h1, h2⟩

/-- C4 (amended): the conflict check returns the empty sequence when no
booking of the room overlaps the candidate interval (modulo exclusion),
and otherwise contains exactly the overlapping bookings of that room —
every one of them, not just the first; the result carries no ordering
guarantee (the query has no orderBy clause). -/
theorem C4_findConflicts_complete (bs : List Booking) (rid : String)
    (startT endT : Int) (excl : Option Nat) :
    (findConflicts bs rid startT endT excl = [] ↔
      ∀ b ∈ bs, b.roomId = rid → (∀ i ∈ excl, b.id ≠ i) →
        ¬ overlap b.startTime b.endTime startT endT) ∧
    (∀ b, b ∈ findConflicts bs rid startT endT excl ↔
      (b ∈ bs ∧ b.roomId = rid ∧ (∀ i ∈ excl, b.id ≠ i) ∧
        overlap b.startTime b.endTime startT endT)) := by
  constructor
  · rw [findConflicts_eq_nil_iff]
    exact Iff.rfl
  · intro b
    rw [mem_findConflicts]
    exact Iff.rfl

/-- Sample room used by the concrete instances below. -/
def room1 : Room :=
  { id := "r1", name := "Main hall", number := "101", capacity := 10,
    features := [], status := "available" }

/-- Sample room under maintenance. -/
def roomM : Room :=
  { id := "rm", name := "Workshop", number := "102", capacity := 8,
    features := [], status := "maintenance" }

/-- Sample booking [10,20) in room r1. -/
def bookA : Booking :=
  { id := 0, title := "A", roomId := "r1", startTime := 10, endTime := 20,
    notes := none, userId := "u1" }

/-- Store with one available room and no bookings. -/
def store0 : Store := { rooms := [room1], bookings := [], nextId := 0 }

/-- Store with one available room holding booking [10,20). -/
def storeA : Store := { rooms := [room1], bookings := [bookA], nextId := 1 }

/-- Create request for [10,20) in room r1. -/
def reqA : CreateReq :=
  { title := "A", roomId := "r1", startTime := 10, endTime := 20,
    notes := none, userId := "u1" }

/-- C2: the claim says a createBooking that does not succeed leaves the
store unchanged and that the conflict check, insert and status write
form one atomic unit.  The handler uses no transaction: when the
room-status write fails after the insert succeeded, the operation
answers the generic 500 failure yet the inserted booking row persists,
so the unit is not atomic and a failed call can leave partial state. -/
theorem C2_create_not_atomic :
    (createBookingF true false reqA store0).1 = CreateResult.storeError ∧
    (createBookingF true false reqA store0).2.bookings ≠ store0.bookings := by
  constructor
  · rfl
  · decide

/-- Operations that make the booking table hold a later interval before
an earlier one: the table is in insertion order. -/
def opsLateEarly : List Op :=
  [Op.createB { title := "late", roomId := "r1", startTime := 20, endTime := 30,
                notes := none, userId := "u1" },
   Op.createB { title := "early", roomId := "r1", startTime := 0, endTime := 10,
                notes := none, userId := "u1" }]

/-- Reachable store whose booking table lists [20,30) before [0,10). -/
def storeLateEarly : Store := run store0 opsLateEarly

/-- C4 (counterexample): on a reachable store the conflict check returns
the overlapping bookings in table order, here start times [20, 0], which
is not ordered by startTime ascending as the claim states. -/
theorem C4_result_not_sorted :
    (findConflicts storeLateEarly.bookings "r1" 5 25 none).map Booking.startTime
        = [20, 0] ∧
    ¬ List.Sorted (fun x y => x ≤ y)
        ((findConflicts storeLateEarly.bookings "r1" 5 25 none).map Booking.startTime) := by
  constructor
  · decide
  · intro h
    have h20 : ((20 : Int) ≤ 0) := by
      have he : (findConflicts storeLateEarly.bookings "r1" 5 25 none).map Booking.startTime
          = [20, 0] := by decide
      rw [he] at h
      exact List.rel_of_sorted_cons h 0 (List.mem_singleton.2 rfl)
    exact absurd h20 (by decide)

/-- Update request carrying only a title, as the PATCH body of a
title-only update. -/
def reqTitleOnly : UpdateReq := { title := some "Retro", startTime := none, endTime := none }

/-- C5: the claim says a title-only update keeps the prior interval and
succeeds.  The handler always builds new Date(startTime) and
new Date(endTime); with the fields absent these are invalid Dates, the
store rejects the conflict query that uses them, and the catch-all
answers 404, so the title-only update of an existing booking fails with
NotFoundError and changes nothing. -/
theorem C5_title_only_update_fails :
    updateBooking 0 reqTitleOnly storeA = (UpdateResult.notFound, storeA) := by
  rfl

/-- Nonemptiness of the conflict query result. -/
theorem findConflicts_ne_nil_iff (bs : List Booking) (rid : String) (startT endT : Int)
    (excl : Option Nat) :
    findConflicts bs rid startT endT excl ≠ [] ↔
      ∃ b ∈ bs, b.roomId = rid ∧ (∀ i ∈ excl, b.id ≠ i) ∧
        b.startTime < endT ∧ startT < b.endTime := by
  constructor
  · intro h
    rcases List.exists_mem_of_ne_nil _ h with ⟨b, hb⟩
    rcases (mem_findConflicts bs rid startT endT excl b).1 hb with ⟨hb2, hr, hex, h1, h2⟩
    exact ⟨b, hb2, hr, hex, h1, h2⟩
  · rintro ⟨b, hb, hr, hex, h1, h2⟩ hnil
    have hmem : b ∈ findConflicts bs rid startT endT excl :=
      (mem_findConflicts bs rid startT endT excl b).2 ⟨hb, hr, hex, h1, h2⟩
    rw [hnil] at hmem
    exact absurd hmem (List.not_mem_nil b)

/-- Shape of createBooking when the conflict query is nonempty: 409 with
the full conflict list and an unchanged store. -/
theorem createBookingF_of_conflicts_pos (insOk statOk : Bool) (req : CreateReq) (s : Store)
    (h : (findConflicts s.bookings req.roomId req.startTime req.endTime none).length > 0) :
    createBookingF insOk statOk req s =
      (CreateResult.conflict
        (findConflicts s.bookings req.roomId req.startTime req.endTime none), s) := by
  simp [createBookingF, h]

/-- createBooking never answers 409 when the conflict query is empty. -/
theorem createBookingF_no_conflict (insOk statOk : Bool) (req : CreateReq) (s : Store)
    (h : ¬ (findConflicts s.bookings req.roomId req.startTime req.endTime none).length > 0)
    (cs : List Booking) :
    (createBookingF insOk statOk req s).1 ≠ CreateResult.conflict cs := by
  simp only [createBookingF]
  rw [if_neg h]
  split
  · split
    · simp
    · simp
  · simp

/-- createBooking signals the 409 conflict exactly when some booking of
the room overlaps the candidate interval. -/
theorem createBooking_conflict_iff (req : CreateReq) (s : Store) :
    (∃ cs, (createBooking req s).1 = CreateResult.conflict cs) ↔
      ∃ b ∈ s.bookings, b.roomId = req.roomId ∧
        b.startTime < req.endTime ∧ req.startTime < b.endTime := by
  by_cases hc : (findConflicts s.bookings req.roomId req.startTime req.endTime none).length > 0
  · have hne : findConflicts s.bookings req.roomId req.startTime req.endTime none ≠ [] :=
      List.length_pos.1 hc
    rcases (findConflicts_ne_nil_iff s.bookings req.roomId req.startTime req.endTime none).1
        hne with ⟨b, hb, hr, _, h1, h2⟩
    constructor
    · intro _
      exact ⟨b, hb, hr, h1, h2⟩
    · intro _
      refine ⟨findConflicts s.bookings req.roomId req.startTime req.endTime none, ?_⟩
      rw [createBooking, createBookingF_of_conflicts_pos true true req s hc]
  · constructor
    · rintro ⟨cs, hcs⟩
      exact absurd hcs (createBookingF_no_conflict true true req s hc cs)
    · rintro ⟨b, hb, hr, h1, h2⟩
      exfalso
      apply hc
      apply List.length_pos.2
      exact (findConflicts_ne_nil_iff s.bookings req.roomId req.startTime req.endTime none).2
        ⟨b, hb, hr, fun i hi => absurd hi (by simp), h1, h2⟩

/-- C3: with a well-formed candidate interval, createBooking signals
ConflictError exactly when some existing booking of the room satisfies
the half-open overlap rule; consequently a candidate that merely
touches every booking of the room (ends before or when one starts, or
starts when or after one ends) is accepted, and a candidate identical
to an existing booking of the room is rejected. -/
theorem C3_conflict_exactly_on_overlap (s : Store) (req : CreateReq)
    (h : req.startTime < req.endTime) :
    ((∃ cs, (createBooking req s).1 = CreateResult.conflict cs) ↔
      ∃ b ∈ s.bookings, b.roomId = req.roomId ∧
        b.startTime < req.endTime ∧ req.startTime < b.endTime) ∧
    ((∀ b ∈ s.bookings, b.roomId = req.roomId →
        (b.endTime ≤ req.startTime ∨ req.endTime ≤ b.startTime)) →
      ∀ cs, (createBooking req s).1 ≠ CreateResult.conflict cs) ∧
    ((∃ b ∈ s.bookings, b.roomId = req.roomId ∧
        b.startTime = req.startTime ∧ b.endTime = req.endTime) →
      ∃ cs, (createBooking req s).1 = CreateResult.conflict cs) := by
  refine ⟨createBooking_conflict_iff req s, ?_, ?_⟩
  · intro htouch cs hcs
    rcases (createBooking_conflict_iff req s).1 ⟨cs, hcs⟩ with ⟨b, hb, hr, h1, h2⟩
    rcases htouch b hb hr with h3 | h3
    · omega
    · omega
  · rintro ⟨b, hb, hr, hs, he⟩
    apply (createBooking_conflict_iff req s).2
    exact ⟨b, hb, hr, by omega, by omega⟩

/-- Closed instance of C3 at a concrete store and request. -/
theorem C3_conflict_exactly_on_overlap_witness :
    (reqA.startTime < reqA.endTime) ∧
    (((∃ cs, (createBooking reqA storeA).1 = CreateResult.conflict cs) ↔
      ∃ b ∈ storeA.bookings, b.roomId = reqA.roomId ∧
        b.startTime < reqA.endTime ∧ reqA.startTime < b.endTime) ∧
    ((∀ b ∈ storeA.bookings, b.roomId = reqA.roomId →
        (b.endTime ≤ reqA.startTime ∨ reqA.endTime ≤ b.startTime)) →
      ∀ cs, (createBooking reqA storeA).1 ≠ CreateResult.conflict cs) ∧
    ((∃ b ∈ storeA.bookings, b.roomId = reqA.roomId ∧
        b.startTime = reqA.startTime ∧ b.endTime = reqA.endTime) →
      ∃ cs, (createBooking reqA storeA).1 = CreateResult.conflict cs)) :=
  ⟨by decide, C3_conflict_exactly_on_overlap storeA reqA (by decide)⟩

/-- C6: a successful update changes at most the title, startTime and
endTime of the target booking: its roomId and userId are those of the
loaded booking, the room table (hence every status) is untouched, the
id counter is untouched, and every other booking row is unchanged. -/
theorem C6_update_frame (i : Nat) (req : UpdateReq) (s : Store) (old b1 : Booking)
    (s1 : Store) (hold : findUnique s.bookings i = some old)
    (hupd : updateBooking i req s = (UpdateResult.updated b1, s1)) :
    b1.roomId = old.roomId ∧ b1.userId = old.userId ∧ s1.rooms = s.rooms ∧
      s1.nextId = s.nextId ∧
      s1.bookings = s.bookings.map (fun b => if b.id == i then b1 else b) ∧
      ∀ b ∈ s.bookings, b.id ≠ i → b ∈ s1.bookings := by
  simp only [updateBooking, hold] at hupd
  rcases req with ⟨t, st, et⟩
  rcases st with _ | ns
  · simp at hupd
  · rcases et with _ | ne
    · simp at hupd
    · simp only [] at hupd
      split at hupd
      · simp at hupd
      · rw [Prod.mk.injEq] at hupd
        obtain ⟨hres, hstate⟩ := hupd
        injection hres with hres
        subst hres
        subst hstate
        refine ⟨rfl, rfl, rfl, rfl, rfl, ?_⟩
        intro b hb hne
        refine List.mem_map.2 ⟨b, hb, ?_⟩
        simp [hne]

/-- Concrete update request replacing title and interval. -/
def reqShrink : UpdateReq := { title := some "B", startTime := some 11, endTime := some 19 }

/-- Booking [11,19) that the concrete update produces. -/
def bookA2 : Booking :=
  { id := 0, title := "B", roomId := "r1", startTime := 11, endTime := 19,
    notes := none, userId := "u1" }

/-- Store after the concrete update. -/
def storeA2 : Store := { rooms := [room1], bookings := [bookA2], nextId := 1 }

/-- Closed instance of C6 at a concrete store and update. -/
theorem C6_update_frame_witness :
    findUnique storeA.bookings 0 = some bookA ∧
    (bookA2.roomId = bookA.roomId ∧ bookA2.userId = bookA.userId ∧
      storeA2.rooms = storeA.rooms ∧ storeA2.nextId = storeA.nextId ∧
      storeA2.bookings = storeA.bookings.map (fun b => if b.id == 0 then bookA2 else b) ∧
      ∀ b ∈ storeA.bookings, b.id ≠ 0 → b ∈ storeA2.bookings) :=
  ⟨by decide, C6_update_frame 0 reqShrink storeA bookA bookA2 storeA2 (by decide) (by decide)⟩

/-- C9: deleteBooking answers 404 exactly when no booking carries the
requested id; when one does, the single transaction removes the row and
writes the room status, and the operation answers 204 with no payload. -/
theorem C9_delete_booking (i : Nat) (s : Store) (hwf : wellFormedFK s) :
    ((deleteBooking i s).1 = DeleteResult.notFound ↔ ∀ b ∈ s.bookings, b.id ≠ i) ∧
    (∀ bk, findUnique s.bookings i = some bk →
      deleteBooking i s =
        (DeleteResult.deleted,
          setRoomStatus { s with bookings := s.bookings.filter (fun x => x.id != i) }
            bk.roomId "available")) := by
  constructor
  · cases hfind : findUnique s.bookings i with
    | none =>
        simp only [deleteBooking, hfind]
        constructor
        · intro _ b hb
          have hnone := List.find?_eq_none.1 hfind b hb
          simpa using hnone
        · intro _
          trivial
    | some bk =>
        have hbmem : bk ∈ s.bookings := List.mem_of_find?_eq_some hfind
        have hroom : hasRoom s bk.roomId = true := hwf bk hbmem
        have hid : bk.id = i := by
          have := List.find?_some hfind
          simpa using this
        simp only [deleteBooking, hfind, hroom, if_true]
        constructor
        · intro hcontra
          exact absurd hcontra (by simp)
        · intro hall
          exact absurd hid (hall bk hbmem)
  · intro bk hfind
    have hbmem : bk ∈ s.bookings := List.mem_of_find?_eq_some hfind
    have hroom : hasRoom s bk.roomId = true := hwf bk hbmem
    simp [deleteBooking, hfind, hroom]

/-- Closed instance of C9 at a concrete store. -/
theorem C9_delete_booking_witness :
    wellFormedFK storeA ∧
    (((deleteBooking 0 storeA).1 = DeleteResult.notFound ↔
        ∀ b ∈ storeA.bookings, b.id ≠ 0) ∧
     (∀ bk, findUnique storeA.bookings 0 = some bk →
        deleteBooking 0 storeA =
          (DeleteResult.deleted,
            setRoomStatus { storeA with bookings := storeA.bookings.filter (fun x => x.id != 0) }
              bk.roomId "available"))) :=
  ⟨by decide, C9_delete_booking 0 storeA (by decide)⟩

/-- C10: a createBooking whose roomId matches no room finds no
conflicts (referential integrity keeps unknown rooms bookingless), and
fails at the insert with the caught generic failure, leaving the store
unchanged; the createBooking handler has no NotFoundError answer at
all. -/
theorem C10_unknown_room (req : CreateReq) (s : Store) (hwf : wellFormedFK s)
    (hroom : hasRoom s req.roomId = false) :
    findConflicts s.bookings req.roomId req.startTime req.endTime none = [] ∧
    createBooking req s = (CreateResult.storeError, s) := by
  have hempty : findConflicts s.bookings req.roomId req.startTime req.endTime none = [] := by
    rw [findConflicts_eq_nil_iff]
    intro b hb hr _ _
    have htrue := hwf b hb
    rw [hr, hroom] at htrue
    exact Bool.noConfusion htrue
  refine ⟨hempty, ?_⟩
  simp only [createBooking, createBookingF, hempty]
  simp [insertAllowed, hroom]

/-- Create request naming a room that does not exist. -/
def reqGhost : CreateReq :=
  { title := "Ghost", roomId := "rX", startTime := 10, endTime := 20,
    notes := none, userId := "u1" }

/-- Closed instance of C10 at a concrete store. -/
theorem C10_unknown_room_witness :
    wellFormedFK storeA ∧ hasRoom storeA reqGhost.roomId = false ∧
    (findConflicts storeA.bookings reqGhost.roomId reqGhost.startTime reqGhost.endTime none = [] ∧
      createBooking reqGhost storeA = (CreateResult.storeError, storeA)) :=
  ⟨by decide, by decide, C10_unknown_room reqGhost storeA (by decide) (by decide)⟩

/-- Writing a status rewrites exactly the looked-up row. -/
theorem find?_setStatusRooms (rid st : String) (rs : List Room) :
    (setStatusRooms rid st rs).find? (fun r => r.id == rid) =
      (rs.find? (fun r => r.id == rid)).map (fun r => { r with status := st }) := by
  induction rs with
  | nil => rfl
  | cons r rs ih =>
      simp only [setStatusRooms, List.map_cons] at *
      by_cases hid : (r.id == rid) = true
      · rw [if_pos hid]
        rw [List.find?_cons_of_pos, List.find?_cons_of_pos]
        · rfl
        · exact hid
        · exact hid
      · rw [if_neg hid]
        rw [List.find?_cons_of_neg, List.find?_cons_of_neg]
        · exact ih
        · exact hid
        · exact hid

/-- A room exists exactly when the lookup finds it. -/
theorem hasRoom_iff_find?_isSome (s : Store) (rid : String) :
    hasRoom s rid = true ↔ (s.rooms.find? (fun r => r.id == rid)).isSome := by
  rw [hasRoom, List.any_eq_true, List.find?_isSome]

/-- Status read-back after a status write. -/
theorem roomStatus_setRoomStatus (s : Store) (rid st : String) :
    roomStatus (setRoomStatus s rid st) rid =
      if hasRoom s rid then some st else none := by
  simp only [roomStatus, setRoomStatus, find?_setStatusRooms]
  cases hfind : s.rooms.find? (fun r => r.id == rid) with
  | none =>
      have hnot : ¬ hasRoom s rid = true := by
        rw [hasRoom_iff_find?_isSome, hfind]
        simp
      rw [if_neg hnot]
      rfl
  | some r =>
      have hyes : hasRoom s rid = true := by
        rw [hasRoom_iff_find?_isSome, hfind]
        rfl
      rw [if_pos hyes]
      rfl

/-- Status read-back after a status write on an existing room. -/
theorem roomStatus_setRoomStatus_of_hasRoom (s : Store) (rid st : String)
    (h : hasRoom s rid = true) :
    roomStatus (setRoomStatus s rid st) rid = some st := by
  rw [roomStatus_setRoomStatus, if_pos h]

/-- C7: a successful createBooking leaves the status of the booked room
at booked, whatever bookings existed before; a successful deleteBooking
leaves the status of the affected room at available, even when other
bookings of that room remain. -/
theorem C7_status_after_create_delete
    (req : CreateReq) (s : Store) (b : Booking) (s1 : Store)
    (i : Nat) (t : Store) (bk : Booking) (t1 : Store)
    (hc : createBooking req s = (CreateResult.created b, s1))
    (hf : findUnique t.bookings i = some bk)
    (hd : deleteBooking i t = (DeleteResult.deleted, t1)) :
    roomStatus s1 req.roomId = some "booked" ∧
      roomStatus t1 bk.roomId = some "available" := by
  constructor
  · simp only [createBooking, createBookingF] at hc
    split at hc
    · exact absurd hc (by simp)
    · split at hc
      · split at hc
        · rename_i hins hstat
          rw [Bool.and_eq_true] at hstat
          rw [Prod.mk.injEq] at hc
          obtain ⟨-, hs1⟩ := hc
          subst hs1
          exact roomStatus_setRoomStatus_of_hasRoom _ _ _ hstat.2
        · exact absurd hc (by simp)
      · exact absurd hc (by simp)
  · simp only [deleteBooking, hf] at hd
    split at hd
    · rename_i hroom
      rw [Prod.mk.injEq] at hd
      obtain ⟨-, ht1⟩ := hd
      subst ht1
      exact roomStatus_setRoomStatus_of_hasRoom _ _ _ hroom
    · exact absurd hd (by simp)

/-- Booking [30,40) in room r1, kept across the concrete delete. -/
def bookB : Booking :=
  { id := 1, title := "B", roomId := "r1", startTime := 30, endTime := 40,
    notes := none, userId := "u1" }

/-- Store holding two bookings of room r1. -/
def storeAB : Store := { rooms := [room1], bookings := [bookA, bookB], nextId := 2 }

/-- Room r1 with status booked. -/
def roomBooked : Room := { room1 with status := "booked" }

/-- Store after the concrete create: booking row plus booked status. -/
def storeCreated : Store := { rooms := [roomBooked], bookings := [bookA], nextId := 1 }

/-- Store after the concrete delete: booking B remains, status available. -/
def storeDeleted : Store := { rooms := [room1], bookings := [bookB], nextId := 2 }

/-- Closed instance of C7: create on an empty room, delete of one of two
bookings of the room. -/
theorem C7_status_witness :
    roomStatus storeCreated reqA.roomId = some "booked" ∧
      roomStatus storeDeleted bookA.roomId = some "available" :=
  C7_status_after_create_delete reqA store0 bookA storeCreated 0 storeAB bookA storeDeleted
    (by decide) (by decide) (by decide)

/-- Appending a booking that overlaps nothing in its room and carries a
fresh id preserves the non-overlap invariant. -/
theorem pairwiseNonOverlap_append (bs : List Booking) (nb : Booking)
    (hno : ∀ b ∈ bs, b.roomId = nb.roomId →
      ¬ (b.startTime < nb.endTime ∧ nb.startTime < b.endTime))
    (hpair : pairwiseNonOverlap bs) :
    pairwiseNonOverlap (bs ++ [nb]) := by
  intro b1 hb1 b2 hb2 hne hroom
  rcases List.mem_append.1 hb1 with h1 | h1 <;> rcases List.mem_append.1 hb2 with h2 | h2
  · exact hpair b1 h1 b2 h2 hne hroom
  · have h2e : b2 = nb := List.mem_singleton.1 h2
    subst h2e
    intro hov
    exact hno b1 h1 hroom ⟨hov.1, hov.2⟩
  · have h1e : b1 = nb := List.mem_singleton.1 h1
    subst h1e
    intro hov
    exact hno b2 h2 hroom.symm ⟨hov.2, hov.1⟩
  · have h1e : b1 = nb := List.mem_singleton.1 h1
    have h2e : b2 = nb := List.mem_singleton.1 h2
    subst h1e
    subst h2e
    exact absurd rfl hne

/-- The booking row that createBooking inserts: request fields plus the
fresh id drawn from the store counter. -/
def newBooking (req : CreateReq) (n : Nat) : Booking :=
  { id := n, title := req.title, roomId := req.roomId, startTime := req.startTime,
    endTime := req.endTime, notes := req.notes, userId := req.userId }

/-- createBooking preserves the store invariant in the failure-free run,
and also when the unguarded room-status write fails after the insert. -/
theorem Inv_createBookingF (statOk : Bool) (req : CreateReq) (s : Store) (h : Inv s) :
    Inv (createBookingF true statOk req s).2 := by
  obtain ⟨hbound, hnodup, hpair⟩ := h
  simp only [createBookingF]
  split
  · exact ⟨hbound, hnodup, hpair⟩
  · rename_i hno
    have hnil : findConflicts s.bookings req.roomId req.startTime req.endTime none = [] := by
      rcases hF : findConflicts s.bookings req.roomId req.startTime req.endTime none with _ | ⟨a, l⟩
      · rfl
      · rw [hF] at hno
        exact absurd (by simp) hno
    have hover2 :=
      (findConflicts_eq_nil_iff s.bookings req.roomId req.startTime req.endTime none).1 hnil
    have hbound2 : ∀ b ∈ s.bookings ++ [newBooking req s.nextId], b.id < s.nextId + 1 := by
      intro b hb
      rcases List.mem_append.1 hb with hmem | hmem
      · exact Nat.lt_succ_of_lt (hbound b hmem)
      · rw [List.mem_singleton.1 hmem]
        exact Nat.lt_succ_self s.nextId
    have hnodup2 : ((s.bookings ++ [newBooking req s.nextId]).map Booking.id).Nodup := by
      rw [List.map_append, List.nodup_append]
      refine ⟨hnodup, List.nodup_singleton _, ?_⟩
      intro x hx hx2
      rcases List.mem_map.1 hx with ⟨b, hb, hxid⟩
      have hlt : b.id < s.nextId := hbound b hb
      have hxe : x = s.nextId := by simpa [newBooking] using hx2
      rw [← hxid] at hxe
      rw [hxe] at hlt
      exact absurd hlt (Nat.lt_irrefl s.nextId)
    have hpair2 : pairwiseNonOverlap (s.bookings ++ [newBooking req s.nextId]) := by
      apply pairwiseNonOverlap_append s.bookings _ _ hpair
      intro b hb hroom hov
      exact hover2 b hb hroom (fun j hj => absurd hj (by simp)) hov
    split
    · split
      · exact ⟨hbound2, hnodup2, hpair2⟩
      · exact ⟨hbound2, hnodup2, hpair2⟩
    · exact ⟨hbound, hnodup, hpair⟩

/-- Replacing the booking with a given id by a row that keeps that id
and overlaps no other booking of its room preserves the invariant. -/
theorem Inv_map_replace (s : Store) (i : Nat) (b1 : Booking)
    (h : Inv s) (hb1 : b1.id = i)
    (hnoov : ∀ b ∈ s.bookings, b.id ≠ i → b.roomId = b1.roomId →
      ¬ (b.startTime < b1.endTime ∧ b1.startTime < b.endTime)) :
    Inv { s with bookings := s.bookings.map (fun b => if b.id == i then b1 else b) } := by
  obtain ⟨hbound, hnodup, hpair⟩ := h
  have hidmap : ∀ b : Booking, (if b.id == i then b1 else b).id = b.id := by
    intro b
    by_cases hbi : (b.id == i) = true
    · rw [if_pos hbi]
      have hbe : b.id = i := by simpa using hbi
      rw [hbe]
      exact hb1
    · rw [if_neg hbi]
  refine ⟨?_, ?_, ?_⟩
  · intro b hb
    rcases List.mem_map.1 hb with ⟨a, ha, hfa⟩
    rw [← hfa, hidmap a]
    exact hbound a ha
  · rw [List.map_map]
    have heq : s.bookings.map (Booking.id ∘ fun b => if b.id == i then b1 else b) =
        s.bookings.map Booking.id :=
      List.map_congr_left (fun a _ => hidmap a)
    rw [heq]
    exact hnodup
  · intro x hx y hy hne hroom
    rcases List.mem_map.1 hx with ⟨a1, ha1, hfa1⟩
    rcases List.mem_map.1 hy with ⟨a2, ha2, hfa2⟩
    by_cases e1 : (a1.id == i) = true <;> by_cases e2 : (a2.id == i) = true
    · exfalso
      rw [if_pos e1] at hfa1
      rw [if_pos e2] at hfa2
      rw [← hfa1, ← hfa2] at hne
      exact hne rfl
    · rw [if_pos e1] at hfa1
      rw [if_neg e2] at hfa2
      subst hfa1
      subst hfa2
      have ha2i : a2.id ≠ i := by simpa using e2
      intro hov
      exact hnoov a2 ha2 ha2i hroom.symm ⟨hov.2, hov.1⟩
    · rw [if_neg e1] at hfa1
      rw [if_pos e2] at hfa2
      subst hfa1
      subst hfa2
      have ha1i : a1.id ≠ i := by simpa using e1
      intro hov
      exact hnoov a1 ha1 ha1i hroom ⟨hov.1, hov.2⟩
    · rw [if_neg e1] at hfa1
      rw [if_neg e2] at hfa2
      subst hfa1
      subst hfa2
      exact hpair a1 ha1 a2 ha2 hne hroom

/-- updateBooking preserves the store invariant. -/
theorem Inv_updateBooking (i : Nat) (req : UpdateReq) (s : Store) (h : Inv s) :
    Inv (updateBooking i req s).2 := by
  cases hfind : findUnique s.bookings i with
  | none =>
      simp only [updateBooking, hfind]
      exact h
  | some old =>
      have hmem : old ∈ s.bookings := List.mem_of_find?_eq_some hfind
      have hid : old.id = i := by
        have := List.find?_some hfind
        simpa using this
      simp only [updateBooking, hfind]
      rcases req with ⟨t, st, et⟩
      rcases st with _ | ns
      · exact h
      · rcases et with _ | ne
        · exact h
        · dsimp only
          by_cases hlen : (findConflicts s.bookings old.roomId ns ne (some i)).length > 0
          · rw [if_pos hlen]
            exact h
          · rw [if_neg hlen]
            have hnil : findConflicts s.bookings old.roomId ns ne (some i) = [] := by
              rcases hF : findConflicts s.bookings old.roomId ns ne (some i) with _ | ⟨a, l⟩
              · rfl
              · rw [hF] at hlen
                exact absurd (by simp) hlen
            have hover := (findConflicts_eq_nil_iff s.bookings old.roomId ns ne (some i)).1 hnil
            refine Inv_map_replace s i _ h ?_ ?_
            · exact hid
            · intro b hb hbne hroom hov
              exact hover b hb hroom (fun j hj => by simp at hj; rw [← hj]; exact hbne) hov

/-- deleteBooking preserves the store invariant. -/
theorem Inv_deleteBooking (i : Nat) (s : Store) (h : Inv s) :
    Inv (deleteBooking i s).2 := by
  obtain ⟨hbound, hnodup, hpair⟩ := h
  cases hfind : findUnique s.bookings i with
  | none =>
      simp only [deleteBooking, hfind]
      exact ⟨hbound, hnodup, hpair⟩
  | some bk =>
      simp only [deleteBooking, hfind]
      split
      · refine ⟨?_, ?_, ?_⟩
        · intro b hb
          exact hbound b (List.mem_of_mem_filter hb)
        · have hsub : ((s.bookings.filter (fun x => x.id != i)).map Booking.id).Sublist
              (s.bookings.map Booking.id) := (List.filter_sublist _).map Booking.id
          exact hnodup.sublist hsub
        · intro b1 hb1 b2 hb2 hne hroom
          exact hpair b1 (List.mem_of_mem_filter hb1) b2 (List.mem_of_mem_filter hb2) hne hroom
      · exact ⟨hbound, hnodup, hpair⟩

/-- Every operation preserves the store invariant. -/
theorem Inv_step (s : Store) (op : Op) (h : Inv s) : Inv (step s op) := by
  cases op with
  | createB req => exact Inv_createBookingF true req s h
  | updateB i req => exact Inv_updateBooking i req s h
  | deleteB i => exact Inv_deleteBooking i s h

/-- Every sequence of operations preserves the store invariant. -/
theorem Inv_run (s : Store) (ops : List Op) (h : Inv s) : Inv (run s ops) := by
  induction ops generalizing s with
  | nil => exact h
  | cons op ops ih => exact ih (step s op) (Inv_step s op h)

/-- C1: from any well-formed store, every committed state reachable by
createBooking, updateBooking and deleteBooking keeps the bookings of
each room pairwise non-overlapping under the half-open rule. -/
theorem C1_no_overlap_reachable (s : Store) (ops : List Op) (h : Inv s) :
    pairwiseNonOverlap (run s ops).bookings :=
  (Inv_run s ops h).2.2

/-- Closed instance of C1 on a concrete run of two creates. -/
theorem C1_no_overlap_reachable_witness :
    Inv store0 ∧ pairwiseNonOverlap (run store0 opsLateEarly).bookings :=
  ⟨by decide, C1_no_overlap_reachable store0 opsLateEarly (by decide)⟩

/-- One operation leaves the room table unchanged, or rewrites one room
status to booked (create) or available (delete). -/
theorem step_rooms_cases (s : Store) (op : Op) :
    (step s op).rooms = s.rooms ∨
      ∃ rid st, (st = "booked" ∨ st = "available") ∧
        (step s op).rooms = setStatusRooms rid st s.rooms := by
  cases op with
  | createB req =>
      simp only [step, createBooking, createBookingF]
      split
      · exact Or.inl rfl
      · split
        · split
          · exact Or.inr ⟨req.roomId, "booked", Or.inl rfl, rfl⟩
          · exact Or.inl rfl
        · exact Or.inl rfl
  | updateB i req =>
      simp only [step, updateBooking]
      cases hfind : findUnique s.bookings i with
      | none => exact Or.inl rfl
      | some old =>
          rcases req with ⟨t, st, et⟩
          rcases st with _ | ns
          · exact Or.inl rfl
          · rcases et with _ | ne
            · exact Or.inl rfl
            · dsimp only
              by_cases hlen : (findConflicts s.bookings old.roomId ns ne (some i)).length > 0
              · rw [if_pos hlen]
                exact Or.inl rfl
              · rw [if_neg hlen]
                exact Or.inl rfl
  | deleteB i =>
      simp only [step, deleteBooking]
      cases hfind : findUnique s.bookings i with
      | none => exact Or.inl rfl
      | some bk =>
          dsimp only
          by_cases hroom : hasRoom s bk.roomId = true
          · rw [if_pos hroom]
            exact Or.inr ⟨bk.roomId, "available", Or.inr rfl, rfl⟩
          · rw [if_neg hroom]
            exact Or.inl rfl

/-- A room that shows status maintenance after one operation already
had status maintenance before it. -/
theorem maintenance_not_entered_step (s : Store) (op : Op) (r : Room)
    (hr : r ∈ (step s op).rooms) (hm : r.status = "maintenance") :
    ∃ r0 ∈ s.rooms, r0.id = r.id ∧ r0.status = "maintenance" := by
  rcases step_rooms_cases s op with hsame | ⟨rid, st, hst, hset⟩
  · rw [hsame] at hr
    exact ⟨r, hr, rfl, hm⟩
  · rw [hset] at hr
    rcases List.mem_map.1 hr with ⟨r0, hr0, heq⟩
    by_cases hid : (r0.id == rid) = true
    · rw [if_pos hid] at heq
      exfalso
      rw [← heq] at hm
      simp only [] at hm
      rcases hst with hbk | hav
      · rw [hbk] at hm
        exact absurd hm (by decide)
      · rw [hav] at hm
        exact absurd hm (by decide)
    · rw [if_neg hid] at heq
      subst heq
      exact ⟨r0, hr0, rfl, hm⟩

/-- A room that shows status maintenance after a run of operations
already had status maintenance initially. -/
theorem maintenance_not_entered_run (s : Store) (ops : List Op) (r : Room)
    (hr : r ∈ (run s ops).rooms) (hm : r.status = "maintenance") :
    ∃ r0 ∈ s.rooms, r0.id = r.id ∧ r0.status = "maintenance" := by
  induction ops generalizing s with
  | nil => exact ⟨r, hr, rfl, hm⟩
  | cons op ops ih =>
      rcases ih (step s op) hr with ⟨r1, hr1, hid1, hm1⟩
      rcases maintenance_not_entered_step s op r1 hr1 hm1 with ⟨r0, hr0, hid0, hm0⟩
      exact ⟨r0, hr0, hid0.trans hid1, hm0⟩

/-- C8 (amended): the booking flow never moves a room into maintenance:
a room whose status reads maintenance in any reachable state already
had it before the run; however createBooking and deleteBooking do
overwrite the status of a maintenance room (with booked, respectively
available) when they touch it. -/
theorem C8_maintenance_never_entered (s : Store) (ops : List Op) (r : Room)
    (hr : r ∈ (run s ops).rooms) (hm : r.status = "maintenance") :
    ∃ r0 ∈ s.rooms, r0.id = r.id ∧ r0.status = "maintenance" :=
  maintenance_not_entered_run s ops r hr hm

/-- Store whose only room is under maintenance. -/
def storeM : Store := { rooms := [roomM], bookings := [], nextId := 0 }

/-- Create request for the maintenance room. -/
def reqM : CreateReq :=
  { title := "M", roomId := "rm", startTime := 10, endTime := 20,
    notes := none, userId := "u1" }

/-- C8 (counterexample): a single createBooking on a room under
maintenance succeeds and overwrites its status with booked, so the
booking flow does move a room out of maintenance, against the claim. -/
theorem C8_maintenance_exited :
    roomStatus storeM "rm" = some "maintenance" ∧
      (createBooking reqM storeM).1 =
        CreateResult.created (newBooking reqM 0) ∧
      roomStatus (run storeM [Op.createB reqM]) "rm" = some "booked" := by
  refine ⟨?_, ?_, ?_⟩ <;> decide

/-- Store with an available room and a maintenance room. -/
def store1M : Store := { rooms := [room1, roomM], bookings := [], nextId := 0 }

/-- Closed instance of the amended C8: after a create on the available
room, the maintenance room still reads maintenance, and it already did
initially. -/
theorem C8_maintenance_never_entered_witness :
    roomM ∈ (run store1M [Op.createB reqA]).rooms ∧ roomM.status = "maintenance" ∧
      ∃ r0 ∈ store1M.rooms, r0.id = roomM.id ∧ r0.status = "maintenance" :=
  ⟨by decide, by decide,
    C8_maintenance_never_entered store1M [Op.createB reqA] roomM (by decide) (by decide)⟩

end Rooms
